import Mathlib

/-!
# Famloop recurrence engine — verification of the specification against the code

This file gives a shallow embedding of the recurrence engine of the Famloop
family-calendar application and settles the frozen claims about it.

The engine consists of
* `isEventOnDay` / `expandRecurringEvents` (events, `src/unnamed/part_003`), and
* `isChoreOnDay` (chores, `src/unnamed/part_011`),
both written in TypeScript over JavaScript `Date` values and a handful of
`date-fns` helpers (`startOfDay`, `isBefore`, `isSameDay`, `getDay`,
`differenceInDays`, `differenceInWeeks`, `differenceInMonths`, `startOfWeek`,
`addDays`).

## Embedding conventions

* A JavaScript `Date` / timestamp is an integer number of milliseconds since
  the Unix epoch (`Int`).  The spec (§6) fixes a single ambient local timezone
  for all day-boundary math; we instantiate that ambient timezone with UTC, so
  a calendar day is a block of `86400000` consecutive milliseconds aligned to
  multiples of `86400000`.  All of the date-fns helpers below are then exact
  integer translations of their JavaScript sources under that instantiation.
* JavaScript `%` on integers is truncated remainder (`Int.tmod`); `Math.trunc`
  of an integer quotient is `Int.tdiv`.
* `x || 1` on a number field and `if (x)` on an optional number field follow
  JavaScript truthiness: `0` (and an absent value) is falsy, every other
  integer — including negatives — is truthy.
-/

namespace Famloop

/-- Milliseconds in one calendar day (no DST in the ambient UTC timezone). -/
def dayMs : Int := 86400000

/-- The calendar-day index of a timestamp: the number of whole days between
the epoch day and the timestamp's day (floor division, so it is correct for
timestamps before the epoch as well). -/
def dayIdx (t : Int) : Int := t.fdiv dayMs

/-- date-fns `startOfDay`: strip the time-of-day component. -/
def startOfDay (t : Int) : Int := dayIdx t * dayMs

/-- date-fns `isBefore`. -/
def isBefore (a b : Int) : Bool := decide (a < b)

/-- date-fns `isSameDay`: compare the two start-of-days. -/
def isSameDay (a b : Int) : Bool := decide (startOfDay a = startOfDay b)

/-- JavaScript `Date.prototype.getDay` / date-fns `getDay`:
day of the week, `0 = Sunday .. 6 = Saturday`.  Day `0` (1970-01-01) was a
Thursday (`4`). -/
def getDay (t : Int) : Int := (dayIdx t + 4).emod 7

/-- date-fns `startOfWeek` with `weekStartsOn: 0` (Sunday):
back up to the most recent Sunday and strip the time-of-day. -/
def startOfWeek0 (t : Int) : Int := startOfDay t - getDay t * dayMs

/-- The time-of-day component of a timestamp, in milliseconds
(what JavaScript `getHours`/`getMinutes`/`getSeconds`/`getMilliseconds`
jointly encode). -/
def timeOfDay (t : Int) : Int := t - startOfDay t

/-- date-fns `addDays` (in the UTC instantiation a calendar day is exactly
`dayMs` milliseconds). -/
def addDays (t : Int) (n : Int) : Int := t + n * dayMs

/-- date-fns `compareAsc`: `-1`, `0` or `1`. -/
def compareAsc (a b : Int) : Int := if a < b then -1 else if b < a then 1 else 0

/-- date-fns `differenceInCalendarDays`: number of day boundaries crossed. -/
def differenceInCalendarDays (a b : Int) : Int := dayIdx a - dayIdx b

/-- date-fns `differenceInDays`: the number of *full* days between the two
timestamps.  Faithful to the JavaScript source: take the absolute calendar-day
difference, move the left endpoint back by that many days, and subtract one
when the final partial day is not complete. -/
def differenceInDays (a b : Int) : Int :=
  let sign := compareAsc a b
  let diff : Int := (differenceInCalendarDays a b).natAbs
  let a2 := a - sign * diff * dayMs
  let isLastDayNotFull : Int := if compareAsc a2 b = -sign then 1 else 0
  sign * (diff - isLastDayNotFull)

/-- date-fns `differenceInWeeks` (default `trunc` rounding):
full days divided by 7, truncated toward zero. -/
def differenceInWeeks (a b : Int) : Int := (differenceInDays a b).tdiv 7

/-!
## Civil (Gregorian) calendar conversions

`differenceInMonths` and `getDate` need the year/month/day view of a day
index.  These are the standard Gregorian conversions on the proleptic
calendar, matching what the JavaScript `Date` object computes.
`daysFromCivil` is linear in the day argument, which is exactly JavaScript's
out-of-range day/month overflow behaviour (`new Date(2024, 1, 31)` is
March 2nd 2024), so it also models `setMonth`/`setDate` overflow.
-/

/-- Day index of a civil date `(year, month 1..12, day)`.  A `day` outside
`1..monthLength` overflows linearly, exactly like the JavaScript `Date`
setters. -/
def daysFromCivil (y0 m d : Int) : Int :=
  let y := if m ≤ 2 then y0 - 1 else y0
  let era := y.fdiv 400
  let yoe := y - era * 400
  let mp := if 2 < m then m - 3 else m + 9
  let doy := (153 * mp + 2).tdiv 5 + d - 1
  let doe := yoe * 365 + yoe.tdiv 4 - yoe.tdiv 100 + doy
  era * 146097 + doe - 719468

/-- Civil date `(year, month 1..12, day 1..31)` of a day index. -/
def civilFromDays (z0 : Int) : Int × Int × Int :=
  let z := z0 + 719468
  let era := z.fdiv 146097
  let doe := z - era * 146097
  let yoe := (doe - doe.tdiv 1460 + doe.tdiv 36524 - doe.tdiv 146096).tdiv 365
  let y := yoe + era * 400
  let doy := doe - (365 * yoe + yoe.tdiv 4 - yoe.tdiv 100)
  let mp := (5 * doy + 2).tdiv 153
  let d := doy - (153 * mp + 2).tdiv 5 + 1
  let m := if mp < 10 then mp + 3 else mp - 9
  (if m ≤ 2 then y + 1 else y, m, d)

/-- JavaScript `Date.prototype.getDate`: the day of the month, `1..31`. -/
def getDate (t : Int) : Int := (civilFromDays (dayIdx t)).2.2

/-- JavaScript `Date.prototype.getMonth`: the month, `0 = January .. 11`. -/
def getMonth (t : Int) : Int := (civilFromDays (dayIdx t)).2.1 - 1

/-- JavaScript `Date.prototype.getFullYear`. -/
def getFullYear (t : Int) : Int := (civilFromDays (dayIdx t)).1

/-- JavaScript `Date.prototype.setDate` (day-of-month overflow extends into
the neighbouring months). -/
def jsSetDate (t newDate : Int) : Int :=
  let c := civilFromDays (dayIdx t)
  daysFromCivil c.1 c.2.1 newDate * dayMs + timeOfDay t

/-- JavaScript `Date.prototype.setMonth` with a 0-based month that may lie
outside `0..11` (the year is adjusted), keeping the day-of-month, with
day-of-month overflow extending into the next month. -/
def jsSetMonth (t newMonth0 : Int) : Int :=
  let c := civilFromDays (dayIdx t)
  let y := c.1 + newMonth0.fdiv 12
  let m := newMonth0.emod 12 + 1
  daysFromCivil y m c.2.2 * dayMs + timeOfDay t

/-- date-fns `differenceInCalendarMonths`. -/
def differenceInCalendarMonths (a b : Int) : Int :=
  (getFullYear a * 12 + getMonth a) - (getFullYear b * 12 + getMonth b)

/-- date-fns `isLastDayOfMonth`: tomorrow is the 1st. -/
def isLastDayOfMonth (t : Int) : Bool :=
  decide ((civilFromDays (dayIdx t + 1)).2.2 = 1)

/-- date-fns `differenceInMonths`: the number of *full* months between the
two timestamps.  Faithful to the JavaScript source, including its two
end-of-month adjustments (a left endpoint on Feb 28/29 is bumped to "day 30"
before the comparison month-shift, and a left endpoint on the last day of its
month one calendar month after the right endpoint always counts as a full
month). -/
def differenceInMonths (a b : Int) : Int :=
  let sign := compareAsc a b
  let diff : Int := (differenceInCalendarMonths a b).natAbs
  if diff < 1 then 0
  else
    let a1 := if getMonth a = 1 ∧ 27 < getDate a then jsSetDate a 30 else a
    let a2 := jsSetMonth a1 (getMonth a1 - sign * diff)
    let isLastMonthNotFull : Bool :=
      if isLastDayOfMonth a ∧ diff = 1 ∧ compareAsc a b = 1 then false
      else decide (compareAsc a2 b = -sign)
    sign * (diff - (if isLastMonthNotFull then 1 else 0))

/-!
## Data model

`RecurringEvent` is the `RecurringEvent` type of `src/unnamed/part_003`
(which mirrors the `events` table of `convex/schema.ts`); the entity payload
fields that the recurrence engine never reads (title, description, emoji, …)
are not modelled.  `Chore` is the recurrence-relevant part of the `chores`
table / `useChores` hook: note that, unlike events, chores have a *required*
`isRecurring` and *no* `recurrenceEndDate` field.
-/

/-- The `recurrenceType` enum. -/
inductive RecType where
  | daily
  | weekly
  | monthly
deriving DecidableEq, Repr

/-- The `RecurringEvent` type of `src/unnamed/part_003`.  Optional TypeScript
fields are `Option`s. -/
structure RecurringEvent where
  _id : String
  startTime : Int
  endTime : Int
  isRecurring : Option Bool
  recurrenceType : Option RecType
  recurrenceCount : Option Int
  daysOfWeek : Option (List Int)
  recurrenceEndDate : Option Int
deriving DecidableEq, Repr

/-- The recurrence-relevant fields of a `Chore` (`convex/schema.ts`). -/
structure Chore where
  weekStart : Int
  isRecurring : Bool
  recurrenceType : Option RecType
  recurrenceCount : Option Int
  daysOfWeek : Option (List Int)
deriving DecidableEq, Repr

/-- JavaScript `x || 1` on an optional numeric field: absent or `0` gives
`1`; any other value — including a negative one — is truthy and kept. -/
def jsOrOne : Option Int → Int
  | some n => if n = 0 then 1 else n
  | none => 1

/-- JavaScript truthiness of an optional boolean field (`event.isRecurring`). -/
def truthy : Option Bool → Bool
  | some b => b
  | none => false

/-- JavaScript truthiness of `event.daysOfWeek && event.daysOfWeek.length > 0`
(an array is always truthy, so only presence and non-emptiness matter). -/
def hasDaysOfWeek : Option (List Int) → Bool
  | some l => decide (0 < l.length)
  | none => false

/-!
## Occurrence predicates
-/

/-- `isEventOnDay` (`src/unnamed/part_003`): does the event occur on the
calendar day of `date`?

The guard on `event.recurrenceEndDate` follows JavaScript truthiness of
`if (event.recurrenceEndDate)`: an absent *or zero* end date is ignored. -/
def isEventOnDay (event : RecurringEvent) (date : Int) : Bool :=
  let eventStartDate := event.startTime
  let normalizedDate := startOfDay date
  let normalizedEventDate := startOfDay eventStartDate
  -- If date is before the event start date, do not show
  if isBefore normalizedDate normalizedEventDate then false
  -- Check if past the recurrence end date
  else if (match event.recurrenceEndDate with
           | some red => decide (red ≠ 0) && isBefore (startOfDay red) normalizedDate
           | none => false) then false
  -- Non-recurring events: only show on the exact date
  else if !truthy event.isRecurring then isSameDay normalizedDate normalizedEventDate
  else
    -- Recurring events
    let daysDiff := differenceInDays normalizedDate normalizedEventDate
    let interval := jsOrOne event.recurrenceCount
    match event.recurrenceType with
    | some .daily =>
      -- Show every `interval` days
      decide (Int.tmod daysDiff interval = 0)
    | some .weekly =>
      let weeksDiff := differenceInWeeks normalizedDate normalizedEventDate
      -- Check if we are on the right interval week
      if Int.tmod weeksDiff interval ≠ 0 then false
      -- Check daysOfWeek array if present
      else if hasDaysOfWeek event.daysOfWeek then
        (event.daysOfWeek.getD []).contains (getDay normalizedDate)
      -- Fallback: use the same day of week as the start date
      else decide (getDay normalizedEventDate = getDay normalizedDate)
    | some .monthly =>
      let monthsDiff := differenceInMonths normalizedDate normalizedEventDate
      if Int.tmod monthsDiff interval ≠ 0 then false
      -- Check if it is the same day of month
      else decide (getDate normalizedDate = getDate normalizedEventDate)
    | none =>
      -- For recurring events without a specific type, treat as daily
      true

/-- `isChoreOnDay` (`src/unnamed/part_011`): does the chore show on the
calendar day of `date`?  Unlike `isEventOnDay` there is no recurrence end
date (the `Chore` type has no such field), and a *non-recurring* chore shows
for the entire Sunday-started week of its `weekStart`, not only on the exact
day. -/
def isChoreOnDay (chore : Chore) (date : Int) : Bool :=
  let choreDate := chore.weekStart
  let normalizedDate := startOfDay date
  let normalizedChoreDate := startOfDay choreDate
  -- If date is before the chore start date, do not show
  if isBefore normalizedDate normalizedChoreDate then false
  -- Non-recurring chores: show for the entire week starting from weekStart
  else if !chore.isRecurring then
    isSameDay (startOfWeek0 normalizedChoreDate) (startOfWeek0 normalizedDate)
  else
    -- Recurring chores
    let daysDiff := differenceInDays normalizedDate normalizedChoreDate
    let interval := jsOrOne chore.recurrenceCount
    match chore.recurrenceType with
    | some .daily =>
      decide (Int.tmod daysDiff interval = 0)
    | some .weekly =>
      let weeksDiff := differenceInWeeks normalizedDate normalizedChoreDate
      if Int.tmod weeksDiff interval ≠ 0 then false
      else if hasDaysOfWeek chore.daysOfWeek then
        (chore.daysOfWeek.getD []).contains (getDay normalizedDate)
      else decide (getDay normalizedChoreDate = getDay normalizedDate)
    | some .monthly =>
      let monthsDiff := differenceInMonths normalizedDate normalizedChoreDate
      if Int.tmod monthsDiff interval ≠ 0 then false
      else decide (getDate normalizedDate = getDate normalizedChoreDate)
    | none =>
      -- For recurring chores without a specific type, show every day
      true

/-!
## Window expander
-/

/-- The result shape of `expandRecurringEvents`:
`{...event, startTime, endTime, instanceDate, originalEventId}` — the source
event's payload with the four listed fields set/overridden. -/
structure ExpandedEvent where
  event : RecurringEvent
  startTime : Int
  endTime : Int
  instanceDate : Int
  originalEventId : String
deriving DecidableEq, Repr

/-- The day-walk loop of `expandRecurringEvents` for one recurring event.
`fuel` is the number of loop iterations still allowed (the source bounds the
loop by `iterations < maxIterations` with `maxIterations = 400`); the second
component of the result is the number of iterations actually performed.
`instanceStart` models `new Date(currentDate)` (a start-of-day) followed by
`setHours` with the anchor's hours/minutes/seconds/milliseconds, i.e. the
day combined with the anchor's time-of-day. -/
def expandEventDays (event : RecurringEvent) (rangeStart rangeEnd expansionEnd : Int) :
    Nat → Int → List ExpandedEvent × Nat
  | 0, _ => ([], 0)
  | fuel + 1, currentDate =>
    if currentDate ≤ expansionEnd then
      let rest := expandEventDays event rangeStart rangeEnd expansionEnd fuel
        (addDays currentDate 1)
      let here : List ExpandedEvent :=
        if isEventOnDay event currentDate then
          -- Calculate instance times preserving original time of day
          let instanceStart := currentDate + timeOfDay event.startTime
          -- Only include if the instance start is within our query range
          if rangeStart ≤ instanceStart ∧ instanceStart ≤ rangeEnd then
            let duration := event.endTime - event.startTime
            let instanceEnd := instanceStart + duration
            [{ event := event, startTime := instanceStart, endTime := instanceEnd,
               instanceDate := instanceStart, originalEventId := event._id }]
          else []
        else []
      (here ++ rest.1, rest.2 + 1)
    else ([], 0)

/-- The per-event body of the `for` loop of `expandRecurringEvents`:
the instances contributed by one event, together with the number of day-walk
iterations spent on it (0 for the non-recurring branch). -/
def expandOneEvent (rangeStart rangeEnd : Int) (event : RecurringEvent) :
    List ExpandedEvent × Nat :=
  if !truthy event.isRecurring then
    -- Non-recurring: include if within range
    if rangeStart ≤ event.startTime ∧ event.startTime ≤ rangeEnd then
      ([{ event := event, startTime := event.startTime, endTime := event.endTime,
          instanceDate := event.startTime, originalEventId := event._id }], 0)
    else ([], 0)
  else
    -- Determine the end of expansion (either range end or recurrence end);
    -- `if (event.recurrenceEndDate)` is JavaScript-truthy, so 0 is ignored
    let expansionEnd :=
      match event.recurrenceEndDate with
      | some red => if red ≠ 0 ∧ red < rangeEnd then red else rangeEnd
      | none => rangeEnd
    -- Start iteration from the event start or range start, whichever is later
    let start := startOfDay (if event.startTime < rangeStart then rangeStart
                             else event.startTime)
    expandEventDays event rangeStart rangeEnd expansionEnd 400 start

/-- Insert an instance into a list sorted ascending by `startTime`, before
the first strictly later element (so insertion from the left is stable). -/
def insertByStartTime (a : ExpandedEvent) : List ExpandedEvent → List ExpandedEvent
  | [] => [a]
  | b :: l => if a.startTime ≤ b.startTime then a :: b :: l else b :: insertByStartTime a l

/-- Stable sort ascending by `startTime`, modelling
`expandedEvents.sort((a, b) => a.startTime - b.startTime)`.
JavaScript `Array.prototype.sort` is stable (ES2019), and every stable sort
by the same key produces the same list, so a stable insertion sort is a
faithful model. -/
def sortByStartTime : List ExpandedEvent → List ExpandedEvent
  | [] => []
  | a :: l => insertByStartTime a (sortByStartTime l)

/-- `expandRecurringEvents` (`src/unnamed/part_003`): expand a list of events
into dated instances within `[rangeStart, rangeEnd]`, sorted ascending by
instance start time. -/
def expandRecurringEvents (events : List RecurringEvent) (rangeStart rangeEnd : Int) :
    List ExpandedEvent :=
  let expanded := events.flatMap (fun e => (expandOneEvent rangeStart rangeEnd e).1)
  sortByStartTime expanded

/-!
## Spec-side definitions

For claims that compare the code against a quantity the specification
describes in its own words, the spec reading is given as a separate,
clearly-named definition, to be compared with the code-side functions above.
-/

/-- The week-difference quantity as the specification words it for weekly
rules: "whole calendar weeks between anchor's week and candidate's week",
i.e. the difference between the Sunday-started calendar weeks that contain
the two days (`specWholeCalendarWeeksBetween`).  The code instead uses
date-fns `differenceInWeeks`, which counts complete 7-day periods. -/
def specWholeCalendarWeeksBetween (candidate anchor : Int) : Int :=
  (dayIdx (startOfWeek0 (startOfDay candidate)) -
    dayIdx (startOfWeek0 (startOfDay anchor))).tdiv 7

/-- The weekday side-condition of a weekly rule, as both the spec and the
code state it: the candidate's weekday must be a member of `daysOfWeek` when
that list is present and non-empty, and must equal the anchor's weekday
otherwise. -/
def weeklyDayCond (dows : Option (List Int)) (anchorDow dow : Int) : Prop :=
  match dows with
  | some l => if 0 < l.length then dow ∈ l else dow = anchorDow
  | none => dow = anchorDow

/-- "The recurrence end date, when present (and truthy), does not exclude the
candidate day": the hypothesis under which claims about the recurring
branches of `isEventOnDay` apply. -/
def endDateOk (e : RecurringEvent) (d : Int) : Prop :=
  ∀ red, e.recurrenceEndDate = some red → red ≠ 0 → dayIdx d ≤ dayIdx red

/-!
## Sample entities

Concrete events and chores used as counterexample and witness inputs.
Day indices: day 0 = 1970-01-01 (a Thursday), day 2 = 1970-01-03 (Saturday),
day 3 = 1970-01-04 (Sunday), day 6 = 1970-01-07 (Wednesday),
day 19723 = 2024-01-01, day 19753 = 2024-01-31, day 19813 = 2024-03-31,
day 19843 = 2024-04-30.
-/

/-- A non-recurring event at noon of day 0, one minute long. -/
def evNoon : RecurringEvent :=
  { _id := "noon", startTime := 43200000, endTime := 43260000,
    isRecurring := none, recurrenceType := none, recurrenceCount := none,
    daysOfWeek := none, recurrenceEndDate := none }

/-- The single instance `expandRecurringEvents [evNoon] 0 dayMs` produces. -/
def instNoon : ExpandedEvent :=
  { event := evNoon, startTime := 43200000, endTime := 43260000,
    instanceDate := 43200000, originalEventId := "noon" }

/-- A non-recurring event at noon of day 1 whose recurrence end date (day 0)
lies on an earlier calendar day than its anchor. -/
def evEndBeforeAnchor : RecurringEvent :=
  { _id := "ended", startTime := dayMs + 43200000, endTime := dayMs + 43260000,
    isRecurring := none, recurrenceType := none, recurrenceCount := none,
    daysOfWeek := none, recurrenceEndDate := some 1 }

/-- A non-recurring chore anchored on Wednesday, day 6. -/
def choreWed : Chore :=
  { weekStart := 6 * dayMs, isRecurring := false,
    recurrenceType := none, recurrenceCount := none, daysOfWeek := none }

/-- A daily recurring event with a negative interval. -/
def evNegInterval : RecurringEvent :=
  { _id := "neg", startTime := 0, endTime := 1000,
    isRecurring := some true, recurrenceType := some RecType.daily,
    recurrenceCount := some (-2), daysOfWeek := none, recurrenceEndDate := none }

/-- A daily recurring event with a zero interval. -/
def evZeroInterval : RecurringEvent :=
  { evNegInterval with _id := "zero", recurrenceCount := some 0 }

/-- A daily recurring chore with a negative interval. -/
def choreNegInterval : Chore :=
  { weekStart := 0, isRecurring := true, recurrenceType := some RecType.daily,
    recurrenceCount := some (-2), daysOfWeek := none }

/-- A daily recurring chore with a zero interval. -/
def choreZeroInterval : Chore :=
  { choreNegInterval with recurrenceCount := some 0 }

/-- A weekly event anchored on Saturday day 2, every 2 weeks, on Sundays. -/
def evSatWeekly : RecurringEvent :=
  { _id := "sat", startTime := 2 * dayMs, endTime := 2 * dayMs + 3600000,
    isRecurring := some true, recurrenceType := some RecType.weekly,
    recurrenceCount := some 2, daysOfWeek := some [0], recurrenceEndDate := none }

/-- A weekly chore anchored on Saturday day 2, every 2 weeks, on Sundays. -/
def choreSatWeekly : Chore :=
  { weekStart := 2 * dayMs, isRecurring := true,
    recurrenceType := some RecType.weekly, recurrenceCount := some 2,
    daysOfWeek := some [0] }

/-- A daily event anchored at the epoch, every 2 days. -/
def evDaily2 : RecurringEvent :=
  { _id := "d2", startTime := 0, endTime := 1800000,
    isRecurring := some true, recurrenceType := some RecType.daily,
    recurrenceCount := some 2, daysOfWeek := none, recurrenceEndDate := none }

/-- A daily chore anchored at the epoch, every 2 days. -/
def choreDaily2 : Chore :=
  { weekStart := 0, isRecurring := true, recurrenceType := some RecType.daily,
    recurrenceCount := some 2, daysOfWeek := none }

/-- Scenario B of the spec: an event anchored on Jan 31 2024 (day 19753),
monthly, interval 1, one hour long. -/
def evJan31 : RecurringEvent :=
  { _id := "jan31", startTime := 19753 * dayMs, endTime := 19753 * dayMs + 3600000,
    isRecurring := some true, recurrenceType := some RecType.monthly,
    recurrenceCount := some 1, daysOfWeek := none, recurrenceEndDate := none }

/-!
## Arithmetic facts about the date model
-/

theorem dayMs_pos : (0 : Int) < dayMs := by decide

theorem dayIdx_mul (z : Int) : dayIdx (z * dayMs) = z :=
  Int.mul_fdiv_cancel z (by decide)

theorem startOfDay_def (t : Int) : startOfDay t = dayIdx t * dayMs := rfl

theorem dayIdx_startOfDay (t : Int) : dayIdx (startOfDay t) = dayIdx t :=
  dayIdx_mul _

theorem startOfDay_mul (z : Int) : startOfDay (z * dayMs) = z * dayMs := by
  unfold startOfDay
  rw [dayIdx_mul]

theorem compareAsc_self (a : Int) : compareAsc a a = 0 := by
  unfold compareAsc
  simp

theorem compareAsc_of_lt {a b : Int} (h : a < b) : compareAsc a b = -1 := by
  unfold compareAsc
  rw [if_pos h]

theorem compareAsc_of_gt {a b : Int} (h : b < a) : compareAsc a b = 1 := by
  unfold compareAsc
  rw [if_neg (by omega), if_pos h]

theorem mul_dayMs_lt {a b : Int} (h : a < b) : a * dayMs < b * dayMs := by
  simp only [dayMs]
  omega

/-- On start-of-day timestamps, date-fns `differenceInDays` is exactly the
difference of the day indices. -/
theorem differenceInDays_mul (za zb : Int) :
    differenceInDays (za * dayMs) (zb * dayMs) = za - zb := by
  rcases lt_trichotomy za zb with h | h | h
  · have habs : ((za - zb).natAbs : Int) = zb - za := by omega
    have hc := compareAsc_of_lt (mul_dayMs_lt h)
    simp only [differenceInDays, differenceInCalendarDays, dayIdx_mul, hc, habs]
    have e : za * dayMs - -1 * (zb - za) * dayMs = zb * dayMs := by ring
    rw [e, compareAsc_self]
    norm_num
  · subst h
    have habs : ((za - za).natAbs : Int) = 0 := by omega
    simp only [differenceInDays, differenceInCalendarDays, dayIdx_mul, compareAsc_self, habs]
    ring
  · have habs : ((za - zb).natAbs : Int) = za - zb := by omega
    have hc := compareAsc_of_gt (mul_dayMs_lt h)
    simp only [differenceInDays, differenceInCalendarDays, dayIdx_mul, hc, habs]
    have e : za * dayMs - 1 * (za - zb) * dayMs = zb * dayMs := by ring
    rw [e, compareAsc_self]
    norm_num

/-- On start-of-day timestamps, date-fns `differenceInWeeks` is the day-index
difference divided by 7, truncated toward zero. -/
theorem differenceInWeeks_mul (za zb : Int) :
    differenceInWeeks (za * dayMs) (zb * dayMs) = (za - zb).tdiv 7 := by
  unfold differenceInWeeks
  rw [differenceInDays_mul]

theorem getDay_mul (z : Int) : getDay (z * dayMs) = (z + 4).emod 7 := by
  unfold getDay
  rw [dayIdx_mul]

theorem mul_dayMs_lt_iff {a b : Int} : a * dayMs < b * dayMs ↔ a < b := by
  simp only [dayMs]
  omega

theorem mul_dayMs_le_iff {a b : Int} : a * dayMs ≤ b * dayMs ↔ a ≤ b := by
  simp only [dayMs]
  omega

theorem mul_dayMs_eq_iff {a b : Int} : a * dayMs = b * dayMs ↔ a = b := by
  simp only [dayMs]
  omega

theorem startOfDay_startOfDay (t : Int) : startOfDay (startOfDay t) = startOfDay t := by
  unfold startOfDay
  rw [dayIdx_mul]

theorem getDay_startOfDay (t : Int) : getDay (startOfDay t) = getDay t := by
  unfold getDay
  rw [dayIdx_startOfDay]

theorem startOfWeek0_eq (t : Int) : startOfWeek0 t = (dayIdx t - getDay t) * dayMs := by
  unfold startOfWeek0 startOfDay
  ring

theorem startOfDay_startOfWeek0 (t : Int) :
    startOfDay (startOfWeek0 t) = startOfWeek0 t := by
  rw [startOfWeek0_eq]
  exact startOfDay_mul _

theorem jsOrOne_some_of_ne {n : Int} (h : n ≠ 0) : jsOrOne (some n) = n := by
  simp [jsOrOne, h]

theorem dayMs_ne_zero : dayMs ≠ 0 := by decide

/-!
## Structure of the expander output
-/

/-- Every instance produced by the day-walk of `expandEventDays` carries the
source event and its id, has `instanceDate` equal to its own start, preserves
the source's duration, and has its start inside `[rangeStart, rangeEnd]`. -/
theorem mem_expandEventDays {e : RecurringEvent} {rS rE eE : Int} :
    ∀ (fuel : Nat) (cur : Int) {inst : ExpandedEvent},
      inst ∈ (expandEventDays e rS rE eE fuel cur).1 →
      inst.event = e ∧ inst.originalEventId = e._id ∧
        inst.instanceDate = inst.startTime ∧
        inst.endTime - inst.startTime = e.endTime - e.startTime ∧
        rS ≤ inst.startTime ∧ inst.startTime ≤ rE := by
  intro fuel
  induction fuel with
  | zero =>
    intro cur inst h
    simp [expandEventDays] at h
  | succ n ih =>
    intro cur inst h
    rw [expandEventDays] at h
    by_cases hle : cur ≤ eE
    · rw [if_pos hle] at h
      rcases List.mem_append.mp h with hl | hr
      · by_cases hon : isEventOnDay e cur
        · rw [if_pos hon] at hl
          by_cases hin : rS ≤ cur + timeOfDay e.startTime ∧ cur + timeOfDay e.startTime ≤ rE
          · rw [if_pos hin] at hl
            rcases List.mem_singleton.mp hl with rfl
            refine ⟨rfl, rfl, rfl, by ring, hin.1, hin.2⟩
          · rw [if_neg hin] at hl
            exact absurd hl (List.not_mem_nil _)
        · rw [if_neg hon] at hl
          exact absurd hl (List.not_mem_nil _)
      · exact ih _ hr
    · rw [if_neg hle] at h
      exact absurd h (List.not_mem_nil _)

/-- The day-walk performs at most `fuel` iterations. -/
theorem count_expandEventDays {e : RecurringEvent} {rS rE eE : Int} :
    ∀ (fuel : Nat) (cur : Int), (expandEventDays e rS rE eE fuel cur).2 ≤ fuel := by
  intro fuel
  induction fuel with
  | zero =>
    intro cur
    simp [expandEventDays]
  | succ n ih =>
    intro cur
    rw [expandEventDays]
    by_cases hle : cur ≤ eE
    · rw [if_pos hle]
      exact Nat.succ_le_succ (ih _)
    · rw [if_neg hle]
      exact Nat.zero_le _

/-- Every instance contributed by one event (either branch of the per-event
loop body) carries that event and its id, has `instanceDate` equal to its own
start, preserves the source duration, and starts inside the range. -/
theorem mem_expandOneEvent {rS rE : Int} {e : RecurringEvent} {inst : ExpandedEvent}
    (h : inst ∈ (expandOneEvent rS rE e).1) :
    inst.event = e ∧ inst.originalEventId = e._id ∧
      inst.instanceDate = inst.startTime ∧
      inst.endTime - inst.startTime = e.endTime - e.startTime ∧
      rS ≤ inst.startTime ∧ inst.startTime ≤ rE := by
  unfold expandOneEvent at h
  by_cases hr : (!truthy e.isRecurring) = true
  · rw [if_pos hr] at h
    by_cases hin : rS ≤ e.startTime ∧ e.startTime ≤ rE
    · rw [if_pos hin] at h
      rcases List.mem_singleton.mp h with rfl
      exact ⟨rfl, rfl, rfl, by ring, hin.1, hin.2⟩
    · rw [if_neg hin] at h
      exact absurd h (List.not_mem_nil _)
  · rw [if_neg hr] at h
    exact mem_expandEventDays _ _ h

theorem mem_insertByStartTime {a x : ExpandedEvent} :
    ∀ {l : List ExpandedEvent}, x ∈ insertByStartTime a l ↔ x = a ∨ x ∈ l := by
  intro l
  induction l with
  | nil => simp [insertByStartTime]
  | cons b l ih =>
    rw [insertByStartTime]
    by_cases h : a.startTime ≤ b.startTime
    · rw [if_pos h]
      simp
    · rw [if_neg h]
      simp only [List.mem_cons, ih]
      tauto

theorem mem_sortByStartTime {x : ExpandedEvent} :
    ∀ {l : List ExpandedEvent}, x ∈ sortByStartTime l ↔ x ∈ l := by
  intro l
  induction l with
  | nil => simp [sortByStartTime]
  | cons a l ih =>
    rw [sortByStartTime]
    rw [mem_insertByStartTime]
    simp only [List.mem_cons, ih]

/-- Every instance returned by `expandRecurringEvents` originates from some
input event, whose payload and id it carries, whose duration it preserves,
and its start lies inside the range. -/
theorem mem_expandRecurringEvents {events : List RecurringEvent} {rS rE : Int}
    {inst : ExpandedEvent} (h : inst ∈ expandRecurringEvents events rS rE) :
    ∃ e ∈ events, inst.event = e ∧ inst.originalEventId = e._id ∧
      inst.instanceDate = inst.startTime ∧
      inst.endTime - inst.startTime = e.endTime - e.startTime ∧
      rS ≤ inst.startTime ∧ inst.startTime ≤ rE := by
  unfold expandRecurringEvents at h
  rw [mem_sortByStartTime] at h
  rcases List.mem_flatMap.mp h with ⟨e, he, hmem⟩
  exact ⟨e, he, mem_expandOneEvent hmem⟩

/-!
## Characterizations of the occurrence predicates
-/

/-- Non-recurring events: when the (truthy) end date does not exclude the
candidate, the event shows exactly on its anchor's calendar day. -/
theorem isEventOnDay_nonRecurring_iff (e : RecurringEvent) (d : Int)
    (hrec : truthy e.isRecurring = false)
    (hok : endDateOk e d) :
    isEventOnDay e d = true ↔ dayIdx d = dayIdx e.startTime := by
  by_cases hlt : dayIdx d < dayIdx e.startTime
  · have g1 : isBefore (dayIdx d * dayMs) (dayIdx e.startTime * dayMs) = true := by
      simp only [isBefore, decide_eq_true_eq]
      exact mul_dayMs_lt_iff.mpr hlt
    have hpred : isEventOnDay e d = false := by
      simp [isEventOnDay, startOfDay_def, g1]
    rw [hpred]
    simp only [Bool.false_eq_true, false_iff]
    omega
  · have g1 : isBefore (dayIdx d * dayMs) (dayIdx e.startTime * dayMs) = false := by
      simp only [isBefore, decide_eq_false_iff_not, mul_dayMs_lt_iff]
      omega
    have hpred : isEventOnDay e d = decide (dayIdx d = dayIdx e.startTime) := by
      rcases hE : e.recurrenceEndDate with _ | r
      · simp [isEventOnDay, startOfDay_def, g1, hE, hrec, isSameDay, dayIdx_mul,
          mul_dayMs_eq_iff, dayMs_ne_zero]
      · by_cases hr0 : r = 0
        · subst hr0
          simp [isEventOnDay, startOfDay_def, g1, hE, hrec, isSameDay, dayIdx_mul,
            mul_dayMs_eq_iff, dayMs_ne_zero]
        · have g2 : isBefore (dayIdx r * dayMs) (dayIdx d * dayMs) = false := by
            have := hok r hE hr0
            simp only [isBefore, decide_eq_false_iff_not, mul_dayMs_lt_iff]
            omega
          simp [isEventOnDay, startOfDay_def, g1, g2, hE, hrec, hr0, isSameDay,
            dayIdx_mul, mul_dayMs_eq_iff, dayMs_ne_zero]
    rw [hpred, decide_eq_true_eq]

/-- Non-recurring chores: the chore shows on every day of the Sunday-started
calendar week of its anchor that is not before the anchor day — not only on
the anchor day itself. -/
theorem isChoreOnDay_nonRecurring_iff (c : Chore) (d : Int)
    (hrec : c.isRecurring = false) :
    isChoreOnDay c d = true ↔
      dayIdx c.weekStart ≤ dayIdx d ∧
        startOfWeek0 (startOfDay d) = startOfWeek0 (startOfDay c.weekStart) := by
  by_cases hlt : dayIdx d < dayIdx c.weekStart
  · have g1 : isBefore (dayIdx d * dayMs) (dayIdx c.weekStart * dayMs) = true := by
      simp only [isBefore, decide_eq_true_eq]
      exact mul_dayMs_lt_iff.mpr hlt
    have hpred : isChoreOnDay c d = false := by
      simp [isChoreOnDay, startOfDay_def, g1]
    rw [hpred]
    simp only [Bool.false_eq_true, false_iff]
    intro h
    omega
  · have g1 : isBefore (dayIdx d * dayMs) (dayIdx c.weekStart * dayMs) = false := by
      simp only [isBefore, decide_eq_false_iff_not, mul_dayMs_lt_iff]
      omega
    have hpred : isChoreOnDay c d =
        decide (startOfWeek0 (startOfDay c.weekStart) = startOfWeek0 (startOfDay d)) := by
      simp [isChoreOnDay, startOfDay_def, g1, hrec, isSameDay, startOfWeek0_eq,
        dayIdx_mul, getDay, mul_dayMs_eq_iff, dayMs_ne_zero]
    rw [hpred, decide_eq_true_eq]
    constructor
    · intro h
      exact ⟨by omega, h.symm⟩
    · intro h
      exact h.2.symm

/-- Recurring daily events with a positive interval `N`: the event shows
exactly on candidate days at or after the anchor whose whole-day distance
from the anchor is a multiple of `N` (when the end date does not exclude the
candidate). -/
theorem isEventOnDay_daily_iff (e : RecurringEvent) (d N : Int)
    (hrec : truthy e.isRecurring = true)
    (hty : e.recurrenceType = some RecType.daily)
    (hrc : e.recurrenceCount = some N) (hN : 1 ≤ N)
    (hok : endDateOk e d) :
    isEventOnDay e d = true ↔
      dayIdx e.startTime ≤ dayIdx d ∧
        Int.tmod (dayIdx d - dayIdx e.startTime) N = 0 := by
  have hN0 : N ≠ 0 := by omega
  by_cases hlt : dayIdx d < dayIdx e.startTime
  · have g1 : isBefore (dayIdx d * dayMs) (dayIdx e.startTime * dayMs) = true := by
      simp only [isBefore, decide_eq_true_eq]
      exact mul_dayMs_lt_iff.mpr hlt
    have hpred : isEventOnDay e d = false := by
      simp [isEventOnDay, startOfDay_def, g1]
    rw [hpred]
    simp only [Bool.false_eq_true, false_iff]
    intro h
    omega
  · have g1 : isBefore (dayIdx d * dayMs) (dayIdx e.startTime * dayMs) = false := by
      simp only [isBefore, decide_eq_false_iff_not, mul_dayMs_lt_iff]
      omega
    have hpred : isEventOnDay e d =
        decide (Int.tmod (dayIdx d - dayIdx e.startTime) N = 0) := by
      rcases hE : e.recurrenceEndDate with _ | r
      · simp [isEventOnDay, startOfDay_def, differenceInDays_mul, g1, hE, hty,
          hrec, hrc, jsOrOne_some_of_ne hN0]
      · by_cases hr0 : r = 0
        · subst hr0
          simp [isEventOnDay, startOfDay_def, differenceInDays_mul, g1, hE, hty,
            hrec, hrc, jsOrOne_some_of_ne hN0]
        · have g2 : isBefore (dayIdx r * dayMs) (dayIdx d * dayMs) = false := by
            have := hok r hE hr0
            simp only [isBefore, decide_eq_false_iff_not, mul_dayMs_lt_iff]
            omega
          simp [isEventOnDay, startOfDay_def, differenceInDays_mul, g1, g2, hE,
            hty, hrec, hrc, hr0, jsOrOne_some_of_ne hN0]
    rw [hpred, decide_eq_true_eq]
    exact ⟨fun h => ⟨by omega, h⟩, fun h => h.2⟩

/-- Recurring daily chores with a positive interval `N` (chores have no
recurrence end date field). -/
theorem isChoreOnDay_daily_iff (c : Chore) (d N : Int)
    (hrec : c.isRecurring = true)
    (hty : c.recurrenceType = some RecType.daily)
    (hrc : c.recurrenceCount = some N) (hN : 1 ≤ N) :
    isChoreOnDay c d = true ↔
      dayIdx c.weekStart ≤ dayIdx d ∧
        Int.tmod (dayIdx d - dayIdx c.weekStart) N = 0 := by
  have hN0 : N ≠ 0 := by omega
  by_cases hlt : dayIdx d < dayIdx c.weekStart
  · have g1 : isBefore (dayIdx d * dayMs) (dayIdx c.weekStart * dayMs) = true := by
      simp only [isBefore, decide_eq_true_eq]
      exact mul_dayMs_lt_iff.mpr hlt
    have hpred : isChoreOnDay c d = false := by
      simp [isChoreOnDay, startOfDay_def, g1]
    rw [hpred]
    simp only [Bool.false_eq_true, false_iff]
    intro h
    omega
  · have g1 : isBefore (dayIdx d * dayMs) (dayIdx c.weekStart * dayMs) = false := by
      simp only [isBefore, decide_eq_false_iff_not, mul_dayMs_lt_iff]
      omega
    have hpred : isChoreOnDay c d =
        decide (Int.tmod (dayIdx d - dayIdx c.weekStart) N = 0) := by
      simp [isChoreOnDay, startOfDay_def, differenceInDays_mul, g1, hty,
        hrec, hrc, jsOrOne_some_of_ne hN0]
    rw [hpred, decide_eq_true_eq]
    exact ⟨fun h => ⟨by omega, h⟩, fun h => h.2⟩

/-- Recurring weekly events with a positive interval `N`, on candidate days
at or after the anchor (end date not excluding the candidate): the event
shows iff the number of *complete 7-day periods* since the anchor day is a
multiple of `N` and the weekday condition holds. -/
theorem isEventOnDay_weekly_iff (e : RecurringEvent) (d N : Int)
    (hrec : truthy e.isRecurring = true)
    (hty : e.recurrenceType = some RecType.weekly)
    (hrc : e.recurrenceCount = some N) (hN : 1 ≤ N)
    (hge : dayIdx e.startTime ≤ dayIdx d)
    (hok : endDateOk e d) :
    isEventOnDay e d = true ↔
      Int.tmod ((dayIdx d - dayIdx e.startTime).tdiv 7) N = 0 ∧
        weeklyDayCond e.daysOfWeek (getDay e.startTime) (getDay d) := by
  have hN0 : N ≠ 0 := by omega
  have g1 : isBefore (dayIdx d * dayMs) (dayIdx e.startTime * dayMs) = false := by
    simp only [isBefore, decide_eq_false_iff_not, mul_dayMs_lt_iff]
    omega
  have hpred : isEventOnDay e d =
      (if Int.tmod ((dayIdx d - dayIdx e.startTime).tdiv 7) N ≠ 0 then false
       else if hasDaysOfWeek e.daysOfWeek then
         (e.daysOfWeek.getD []).contains (getDay d)
       else decide (getDay e.startTime = getDay d)) := by
    rcases hE : e.recurrenceEndDate with _ | r
    · simp [isEventOnDay, startOfDay_def, differenceInWeeks_mul, g1, hE, hty,
        hrec, hrc, jsOrOne_some_of_ne hN0, getDay, dayIdx_mul]
    · by_cases hr0 : r = 0
      · subst hr0
        simp [isEventOnDay, startOfDay_def, differenceInWeeks_mul, g1, hE, hty,
          hrec, hrc, jsOrOne_some_of_ne hN0, getDay, dayIdx_mul]
      · have g2 : isBefore (dayIdx r * dayMs) (dayIdx d * dayMs) = false := by
          have := hok r hE hr0
          simp only [isBefore, decide_eq_false_iff_not, mul_dayMs_lt_iff]
          omega
        simp [isEventOnDay, startOfDay_def, differenceInWeeks_mul, g1, g2, hE,
          hty, hrec, hrc, hr0, jsOrOne_some_of_ne hN0, getDay, dayIdx_mul]
  rw [hpred]
  by_cases hw : Int.tmod ((dayIdx d - dayIdx e.startTime).tdiv 7) N = 0
  · rw [if_neg (not_not_intro hw)]
    rcases hD : e.daysOfWeek with _ | l
    · simp [hasDaysOfWeek, weeklyDayCond, hw, eq_comm]
    · by_cases hl : 0 < l.length
      · simp [hasDaysOfWeek, weeklyDayCond, hw, hl]
      · simp [hasDaysOfWeek, weeklyDayCond, hw, hl, eq_comm]
  · rw [if_pos hw]
    simp [hw]

/-- Recurring weekly chores with a positive interval `N`, on candidate days
at or after the anchor. -/
theorem isChoreOnDay_weekly_iff (c : Chore) (d N : Int)
    (hrec : c.isRecurring = true)
    (hty : c.recurrenceType = some RecType.weekly)
    (hrc : c.recurrenceCount = some N) (hN : 1 ≤ N)
    (hge : dayIdx c.weekStart ≤ dayIdx d) :
    isChoreOnDay c d = true ↔
      Int.tmod ((dayIdx d - dayIdx c.weekStart).tdiv 7) N = 0 ∧
        weeklyDayCond c.daysOfWeek (getDay c.weekStart) (getDay d) := by
  have hN0 : N ≠ 0 := by omega
  have g1 : isBefore (dayIdx d * dayMs) (dayIdx c.weekStart * dayMs) = false := by
    simp only [isBefore, decide_eq_false_iff_not, mul_dayMs_lt_iff]
    omega
  have hpred : isChoreOnDay c d =
      (if Int.tmod ((dayIdx d - dayIdx c.weekStart).tdiv 7) N ≠ 0 then false
       else if hasDaysOfWeek c.daysOfWeek then
         (c.daysOfWeek.getD []).contains (getDay d)
       else decide (getDay c.weekStart = getDay d)) := by
    simp [isChoreOnDay, startOfDay_def, differenceInWeeks_mul, g1, hty,
      hrec, hrc, jsOrOne_some_of_ne hN0, getDay, dayIdx_mul]
  rw [hpred]
  by_cases hw : Int.tmod ((dayIdx d - dayIdx c.weekStart).tdiv 7) N = 0
  · rw [if_neg (not_not_intro hw)]
    rcases hD : c.daysOfWeek with _ | l
    · simp [hasDaysOfWeek, weeklyDayCond, hw, eq_comm]
    · by_cases hl : 0 < l.length
      · simp [hasDaysOfWeek, weeklyDayCond, hw, hl]
      · simp [hasDaysOfWeek, weeklyDayCond, hw, hl, eq_comm]
  · rw [if_pos hw]
    simp [hw]

/-- A zero interval behaves as interval 1 for events (`0 || 1` is `1`). -/
theorem isEventOnDay_intervalZero (e : RecurringEvent) (d : Int)
    (h : e.recurrenceCount = some 0) :
    isEventOnDay e d = isEventOnDay { e with recurrenceCount := some 1 } d := by
  obtain ⟨eid, st, et, ir, rt, rc, dow, red⟩ := e
  simp only at h
  subst h
  simp [isEventOnDay, jsOrOne]

/-- A negative interval `N` behaves as `-N` for events: a negative number is
truthy, so `N || 1` keeps `N`, and JavaScript `%` ignores the divisor's
sign. -/
theorem isEventOnDay_intervalNeg (e : RecurringEvent) (d N : Int)
    (h : e.recurrenceCount = some N) (hN : N < 0) :
    isEventOnDay e d = isEventOnDay { e with recurrenceCount := some (-N) } d := by
  obtain ⟨eid, st, et, ir, rt, rc, dow, red⟩ := e
  simp only at h
  subst h
  simp only [isEventOnDay, jsOrOne_some_of_ne (show N ≠ 0 by omega),
    jsOrOne_some_of_ne (show -N ≠ 0 by omega), Int.tmod_neg]

/-- A zero interval behaves as interval 1 for chores. -/
theorem isChoreOnDay_intervalZero (c : Chore) (d : Int)
    (h : c.recurrenceCount = some 0) :
    isChoreOnDay c d = isChoreOnDay { c with recurrenceCount := some 1 } d := by
  obtain ⟨ws, ir, rt, rc, dow⟩ := c
  simp only at h
  subst h
  simp [isChoreOnDay, jsOrOne]

/-- A negative interval `N` behaves as `-N` for chores. -/
theorem isChoreOnDay_intervalNeg (c : Chore) (d N : Int)
    (h : c.recurrenceCount = some N) (hN : N < 0) :
    isChoreOnDay c d = isChoreOnDay { c with recurrenceCount := some (-N) } d := by
  obtain ⟨ws, ir, rt, rc, dow⟩ := c
  simp only at h
  subst h
  simp only [isChoreOnDay, jsOrOne_some_of_ne (show N ≠ 0 by omega),
    jsOrOne_some_of_ne (show -N ≠ 0 by omega), Int.tmod_neg]

/-!
## Claims
-/

/-- C2: for every collection of items and every window
`[rangeStart, rangeEnd]`, every instance returned by
`expandRecurringEvents` has a start timestamp satisfying
`rangeStart ≤ startTime ≤ rangeEnd`, for any rule shape and any range. -/
theorem expandWithinRange (events : List RecurringEvent) (rS rE : Int)
    (inst : ExpandedEvent) (h : inst ∈ expandRecurringEvents events rS rE) :
    rS ≤ inst.startTime ∧ inst.startTime ≤ rE := by
  rcases mem_expandRecurringEvents h with ⟨e, _, _, _, _, _, h5, h6⟩
  exact ⟨h5, h6⟩

theorem expandWithinRange_witness :
    (0 : Int) ≤ instNoon.startTime ∧ instNoon.startTime ≤ dayMs :=
  expandWithinRange [evNoon] 0 dayMs instNoon (by decide)

/-- C3: every instance returned by `expandRecurringEvents` preserves the
duration of its source item: `endTime - startTime` of the instance equals
`endTime - startTime` of the originating event. -/
theorem expandPreservesDuration (events : List RecurringEvent) (rS rE : Int)
    (inst : ExpandedEvent) (h : inst ∈ expandRecurringEvents events rS rE) :
    ∃ e ∈ events, inst.originalEventId = e._id ∧
      inst.endTime - inst.startTime = e.endTime - e.startTime := by
  rcases mem_expandRecurringEvents h with ⟨e, he, _, h2, _, h4, _, _⟩
  exact ⟨e, he, h2, h4⟩

theorem expandPreservesDuration_witness :
    ∃ e ∈ [evNoon], instNoon.originalEventId = e._id ∧
      instNoon.endTime - instNoon.startTime = e.endTime - e.startTime :=
  expandPreservesDuration [evNoon] 0 dayMs instNoon (by decide)

/-- C4: `expandRecurringEvents` terminates on every input — each per-item
day-walk performs at most 400 iterations (one candidate day per iteration),
for every event and every range, including a missing or malformed recurrence
end date and an out-of-order window with `rangeStart > rangeEnd`; hitting
the cap just stops the walk (the result is an ordinary list, never an
error). -/
theorem expandIterationCap (rS rE : Int) (e : RecurringEvent) :
    (expandOneEvent rS rE e).2 ≤ 400 := by
  unfold expandOneEvent
  by_cases hr : (!truthy e.isRecurring) = true
  · rw [if_pos hr]
    by_cases hin : rS ≤ e.startTime ∧ e.startTime ≤ rE
    · rw [if_pos hin]
      exact Nat.zero_le _
    · rw [if_neg hin]
      exact Nat.zero_le _
  · rw [if_neg hr]
    exact count_expandEventDays 400 _

/-- C8: an event anchored on Jan 31 2024 (day 19753), monthly with
interval 1, expanded over Jan 1 2024 (day 19723) through Apr 30 2024
(day 19843), yields instances exactly on Jan 31 and Mar 31 (day 19813) —
none in February or April, which lack a 31st: months without the anchor's
day-of-month are skipped, not clamped to month end. -/
theorem monthlyJan31Expansion :
    civilFromDays 19723 = (2024, 1, 1) ∧ civilFromDays 19753 = (2024, 1, 31) ∧
      civilFromDays 19813 = (2024, 3, 31) ∧ civilFromDays 19843 = (2024, 4, 30) ∧
      expandRecurringEvents [evJan31] (19723 * dayMs) (19843 * dayMs) =
        [{ event := evJan31, startTime := 19753 * dayMs,
           endTime := 19753 * dayMs + 3600000,
           instanceDate := 19753 * dayMs, originalEventId := "jan31" },
         { event := evJan31, startTime := 19813 * dayMs,
           endTime := 19813 * dayMs + 3600000,
           instanceDate := 19813 * dayMs, originalEventId := "jan31" }] := by
  set_option maxRecDepth 10000 in decide

/-- C9 (counterexample): the claim says every returned instance has its
`instanceDate` equal to the matched calendar day *normalized to
start-of-day*.  False: for the noon-anchored non-recurring event `evNoon`,
the single instance returned carries `instanceDate = 43200000` (noon), which
is not a start-of-day timestamp. -/
theorem instanceDateCounterexample :
    (expandRecurringEvents [evNoon] 0 dayMs).map (fun i => i.instanceDate) =
        [43200000] ∧
      startOfDay 43200000 = 0 ∧ (43200000 : Int) ≠ 0 := by
  decide

/-- C9 (amended): every instance returned by `expandRecurringEvents`
carries `instanceDate` equal to the *instance's own start timestamp* (the
matched day combined with the anchor's time-of-day — not normalized to
start-of-day), and `originalEventId` equal to the originating event's
`_id`, whose payload it carries. -/
theorem instanceFields (events : List RecurringEvent) (rS rE : Int)
    (inst : ExpandedEvent) (h : inst ∈ expandRecurringEvents events rS rE) :
    inst.instanceDate = inst.startTime ∧
      ∃ e ∈ events, inst.event = e ∧ inst.originalEventId = e._id := by
  rcases mem_expandRecurringEvents h with ⟨e, he, h1, h2, h3, _, _, _⟩
  exact ⟨h3, e, he, h1, h2⟩

theorem instanceFields_witness :
    instNoon.instanceDate = instNoon.startTime ∧
      ∃ e ∈ [evNoon], instNoon.event = e ∧ instNoon.originalEventId = e._id :=
  instanceFields [evNoon] 0 dayMs instNoon (by decide)

/-- C10: the non-recurring branch of `expandRecurringEvents` never consults
`recurrenceEndDate`: an item with falsy `isRecurring` whose `startTime` lies
in `[rangeStart, rangeEnd]` yields exactly one instance even when a (truthy)
`recurrenceEndDate` is present whose calendar day is strictly before the
anchor day — while `isEventOnDay` returns `false` for the anchor's own
timestamp in that situation. -/
theorem nonRecurringIgnoresEndDate (e : RecurringEvent) (rS rE red : Int)
    (hrec : truthy e.isRecurring = false)
    (hred : e.recurrenceEndDate = some red) (hred0 : red ≠ 0)
    (hbefore : dayIdx red < dayIdx e.startTime)
    (h1 : rS ≤ e.startTime) (h2 : e.startTime ≤ rE) :
    (expandRecurringEvents [e] rS rE).length = 1 ∧
      isEventOnDay e e.startTime = false := by
  constructor
  · have hone : (expandOneEvent rS rE e).1 =
        [{ event := e, startTime := e.startTime, endTime := e.endTime,
           instanceDate := e.startTime, originalEventId := e._id }] := by
      unfold expandOneEvent
      rw [hrec]
      simp [h1, h2]
    unfold expandRecurringEvents
    simp [hone, sortByStartTime, insertByStartTime]
  · have g1 : isBefore (startOfDay e.startTime) (startOfDay e.startTime) = false := by
      simp [isBefore]
    have g2 : isBefore (startOfDay red) (startOfDay e.startTime) = true := by
      simp only [isBefore, startOfDay_def, decide_eq_true_eq]
      exact mul_dayMs_lt_iff.mpr hbefore
    simp [isEventOnDay, hred, hrec, g1, g2, hred0]

theorem nonRecurringIgnoresEndDate_witness :
    (expandRecurringEvents [evEndBeforeAnchor] 0 (2 * dayMs)).length = 1 ∧
      isEventOnDay evEndBeforeAnchor evEndBeforeAnchor.startTime = false :=
  nonRecurringIgnoresEndDate evEndBeforeAnchor 0 (2 * dayMs) 1
    (by decide) (by decide) (by decide) (by decide) (by decide) (by decide)

/-- C1 (counterexample): the claim says the Occurrence Predicate of a
non-recurring item is true iff the candidate day equals the anchor day
exactly.  False for chores: the non-recurring chore `choreWed` is anchored on
Wednesday day 6, yet `isChoreOnDay` also answers `true` on Thursday day 7 —
a different calendar day in the same Sunday-started week. -/
theorem choreWeekCounterexample :
    choreWed.isRecurring = false ∧
      isChoreOnDay choreWed (7 * dayMs) = true ∧
      startOfDay (7 * dayMs) ≠ startOfDay choreWed.weekStart := by
  decide

/-- C1 (amended): for every non-recurring *event* whose (truthy) recurrence
end date does not exclude the candidate day, `isEventOnDay` is true iff the
candidate's calendar day equals the anchor's calendar day exactly, for any
interval/type field values.  For every non-recurring *chore*, `isChoreOnDay`
is true iff the candidate day is not before the anchor day and lies in the
same Sunday-started calendar week as the anchor day. -/
theorem nonRecurringOccurrence :
    (∀ (e : RecurringEvent) (d : Int),
        truthy e.isRecurring = false → endDateOk e d →
        (isEventOnDay e d = true ↔ dayIdx d = dayIdx e.startTime)) ∧
      (∀ (c : Chore) (d : Int), c.isRecurring = false →
        (isChoreOnDay c d = true ↔
          dayIdx c.weekStart ≤ dayIdx d ∧
            startOfWeek0 (startOfDay d) = startOfWeek0 (startOfDay c.weekStart))) :=
  ⟨isEventOnDay_nonRecurring_iff, isChoreOnDay_nonRecurring_iff⟩

theorem nonRecurringOccurrence_witness :
    (isEventOnDay evNoon 43200000 = true ↔
        dayIdx (43200000 : Int) = dayIdx evNoon.startTime) ∧
      (isChoreOnDay choreWed (7 * dayMs) = true ↔
        dayIdx choreWed.weekStart ≤ dayIdx (7 * dayMs) ∧
          startOfWeek0 (startOfDay (7 * dayMs)) =
            startOfWeek0 (startOfDay choreWed.weekStart)) :=
  ⟨nonRecurringOccurrence.1 evNoon 43200000 (by decide)
      (fun r hr => by simp [evNoon] at hr),
   nonRecurringOccurrence.2 choreWed (7 * dayMs) (by decide)⟩

/-- C5 (counterexample): the claim says a zero *or negative* interval is
treated as 1.  False for negative intervals: `-2` is truthy in JavaScript,
so `recurrenceCount || 1` keeps `-2`, and the daily rule `evNegInterval`
(anchor day 0) does not match day 1, which an interval of 1 would match. -/
theorem negativeIntervalCounterexample :
    evNegInterval.recurrenceCount = some (-2) ∧
      isEventOnDay evNegInterval dayMs = false ∧
      isEventOnDay { evNegInterval with recurrenceCount := some 1 } dayMs = true := by
  decide

/-- C5 (amended): a *zero* interval is treated as 1 (for both predicates),
but a *negative* interval `N` is kept by `recurrenceCount || 1` and behaves
exactly like `-N` (JavaScript `%` ignores the divisor's sign) — not like
1. -/
theorem nonPositiveIntervalNormalization :
    (∀ (e : RecurringEvent) (d : Int), e.recurrenceCount = some 0 →
        isEventOnDay e d = isEventOnDay { e with recurrenceCount := some 1 } d) ∧
      (∀ (e : RecurringEvent) (d N : Int), e.recurrenceCount = some N → N < 0 →
        isEventOnDay e d = isEventOnDay { e with recurrenceCount := some (-N) } d) ∧
      (∀ (c : Chore) (d : Int), c.recurrenceCount = some 0 →
        isChoreOnDay c d = isChoreOnDay { c with recurrenceCount := some 1 } d) ∧
      (∀ (c : Chore) (d N : Int), c.recurrenceCount = some N → N < 0 →
        isChoreOnDay c d = isChoreOnDay { c with recurrenceCount := some (-N) } d) :=
  ⟨isEventOnDay_intervalZero, isEventOnDay_intervalNeg,
   isChoreOnDay_intervalZero, isChoreOnDay_intervalNeg⟩

theorem nonPositiveIntervalNormalization_witness :
    (isEventOnDay evZeroInterval dayMs =
        isEventOnDay { evZeroInterval with recurrenceCount := some 1 } dayMs) ∧
      (isEventOnDay evNegInterval dayMs =
        isEventOnDay { evNegInterval with recurrenceCount := some (-(-2)) } dayMs) ∧
      (isChoreOnDay choreZeroInterval dayMs =
        isChoreOnDay { choreZeroInterval with recurrenceCount := some 1 } dayMs) ∧
      (isChoreOnDay choreNegInterval dayMs =
        isChoreOnDay { choreNegInterval with recurrenceCount := some (-(-2)) } dayMs) :=
  ⟨nonPositiveIntervalNormalization.1 evZeroInterval dayMs rfl,
   nonPositiveIntervalNormalization.2.1 evNegInterval dayMs (-2) rfl (by decide),
   nonPositiveIntervalNormalization.2.2.1 choreZeroInterval dayMs rfl,
   nonPositiveIntervalNormalization.2.2.2 choreNegInterval dayMs (-2) rfl (by decide)⟩

/-- C6 (counterexample): the claim counts `w` as whole *calendar* weeks
between the anchor's week and the candidate's week.  False: for the weekly
rule `evSatWeekly` (anchor Saturday day 2, interval 2, `daysOfWeek = [0]`)
and candidate Sunday day 3 — one day later but in the next Sunday-started
calendar week — the calendar-week count is 1, so `1 mod 2 ≠ 0` and the claim
predicts no match, yet the code (which uses complete 7-day periods,
`differenceInWeeks = 0`) answers `true`. -/
theorem weeklyCalendarWeekCounterexample :
    isEventOnDay evSatWeekly (3 * dayMs) = true ∧
      dayIdx evSatWeekly.startTime ≤ dayIdx (3 * dayMs) ∧
      specWholeCalendarWeeksBetween (3 * dayMs) evSatWeekly.startTime = 1 ∧
      Int.tmod (1 : Int) 2 ≠ 0 := by
  decide

/-- C6 (amended): for every weekly recurring rule with interval `N ≥ 1` and
candidate at or after the anchor day (and, for events, an end date that does
not exclude the candidate), the Occurrence Predicate is true iff
`w mod N = 0` where `w` is the number of *complete 7-day periods* between
the anchor day and the candidate day (`(candidateDay - anchorDay) div 7`,
truncated) — not calendar-week boundaries — and the candidate's weekday is a
member of `daysOfWeek` when that list is non-empty, or equals the anchor's
weekday when it is absent or empty. -/
theorem weeklyOccurrence :
    (∀ (e : RecurringEvent) (d N : Int),
        truthy e.isRecurring = true →
        e.recurrenceType = some RecType.weekly →
        e.recurrenceCount = some N → 1 ≤ N →
        dayIdx e.startTime ≤ dayIdx d →
        endDateOk e d →
        (isEventOnDay e d = true ↔
          Int.tmod ((dayIdx d - dayIdx e.startTime).tdiv 7) N = 0 ∧
            weeklyDayCond e.daysOfWeek (getDay e.startTime) (getDay d))) ∧
      (∀ (c : Chore) (d N : Int),
        c.isRecurring = true →
        c.recurrenceType = some RecType.weekly →
        c.recurrenceCount = some N → 1 ≤ N →
        dayIdx c.weekStart ≤ dayIdx d →
        (isChoreOnDay c d = true ↔
          Int.tmod ((dayIdx d - dayIdx c.weekStart).tdiv 7) N = 0 ∧
            weeklyDayCond c.daysOfWeek (getDay c.weekStart) (getDay d))) :=
  ⟨isEventOnDay_weekly_iff, isChoreOnDay_weekly_iff⟩

theorem weeklyOccurrence_witness :
    (isEventOnDay evSatWeekly (3 * dayMs) = true ↔
        Int.tmod ((dayIdx (3 * dayMs) - dayIdx evSatWeekly.startTime).tdiv 7) 2 = 0 ∧
          weeklyDayCond evSatWeekly.daysOfWeek (getDay evSatWeekly.startTime)
            (getDay (3 * dayMs))) ∧
      (isChoreOnDay choreSatWeekly (3 * dayMs) = true ↔
        Int.tmod ((dayIdx (3 * dayMs) - dayIdx choreSatWeekly.weekStart).tdiv 7) 2 = 0 ∧
          weeklyDayCond choreSatWeekly.daysOfWeek (getDay choreSatWeekly.weekStart)
            (getDay (3 * dayMs))) :=
  ⟨weeklyOccurrence.1 evSatWeekly (3 * dayMs) 2 (by decide) (by decide) (by decide)
      (by decide) (by decide) (fun r hr => by simp [evSatWeekly] at hr),
   weeklyOccurrence.2 choreSatWeekly (3 * dayMs) 2 (by decide) (by decide) (by decide)
      (by decide) (by decide)⟩

/-- C7: for every recurring daily rule with interval `N ≥ 1` (and, for
events, no recurrence end date constraint excluding the candidate), the
Occurrence Predicate is true exactly when the candidate day is at or after
the anchor day and the whole-day difference is a multiple of `N`, and false
otherwise. -/
theorem dailyOccurrence :
    (∀ (e : RecurringEvent) (d N : Int),
        truthy e.isRecurring = true →
        e.recurrenceType = some RecType.daily →
        e.recurrenceCount = some N → 1 ≤ N →
        endDateOk e d →
        (isEventOnDay e d = true ↔
          dayIdx e.startTime ≤ dayIdx d ∧
            Int.tmod (dayIdx d - dayIdx e.startTime) N = 0)) ∧
      (∀ (c : Chore) (d N : Int),
        c.isRecurring = true →
        c.recurrenceType = some RecType.daily →
        c.recurrenceCount = some N → 1 ≤ N →
        (isChoreOnDay c d = true ↔
          dayIdx c.weekStart ≤ dayIdx d ∧
            Int.tmod (dayIdx d - dayIdx c.weekStart) N = 0)) :=
  ⟨isEventOnDay_daily_iff, isChoreOnDay_daily_iff⟩

theorem dailyOccurrence_witness :
    (isEventOnDay evDaily2 (2 * dayMs) = true ↔
        dayIdx evDaily2.startTime ≤ dayIdx (2 * dayMs) ∧
          Int.tmod (dayIdx (2 * dayMs) - dayIdx evDaily2.startTime) 2 = 0) ∧
      (isChoreOnDay choreDaily2 (2 * dayMs) = true ↔
        dayIdx choreDaily2.weekStart ≤ dayIdx (2 * dayMs) ∧
          Int.tmod (dayIdx (2 * dayMs) - dayIdx choreDaily2.weekStart) 2 = 0) :=
  ⟨dailyOccurrence.1 evDaily2 (2 * dayMs) 2 (by decide) (by decide) (by decide)
      (by decide) (fun r hr => by simp [evDaily2] at hr),
   dailyOccurrence.2 choreDaily2 (2 * dayMs) 2 (by decide) (by decide) (by decide)
      (by decide)⟩

end Famloop
